import Mathlib

/-!
Shallow embedding of the champions-express domain layer.

The repository is an Express + Prisma CRUD service over three SQLite
tables (clubs, players, statistics).  We model the database as explicit
state (`DB`), the Prisma repositories (`src/src/repositories/*.ts`,
`src/unnamed/part_003`) as pure state-passing functions, and the domain
services (`src/src/services/clubs-service.ts`,
`src/src/services/players-service.ts`) as functions returning
`Except Err`, where `Err` classifies the errors the services throw by
their message, together with the storage-level constraint errors
(foreign key / unique index from
`src/prisma/migrations/20250716223744_database/migration.sql`).

JavaScript truthiness on numbers (`if (x)`) is modelled as `x ≠ 0`, on
strings as `s ≠ ""`; `undefined` optional fields are `Option`;
`String.prototype.trim` is modelled by `jsTrim`, which strips leading
and trailing whitespace characters.
-/

/-- JavaScript `String.prototype.trim`: strip whitespace from both ends
of the string (structural recursion over the character list, so that it
evaluates inside the kernel). -/
def jsTrim (s : String) : String :=
  ⟨((s.data.dropWhile Char.isWhitespace).reverse.dropWhile Char.isWhitespace).reverse⟩

/-- Row of the `clubs` table (`id` primary key, `name` with a unique index). -/
structure ClubRow where
  id : Int
  name : String
deriving DecidableEq, Repr

/-- Row of the `players` table; `clubId` is a foreign key into `clubs`. -/
structure PlayerRow where
  id : Int
  name : String
  nationality : String
  position : String
  clubId : Int
deriving DecidableEq, Repr

/-- Row of the `statistics` table; `playerId` is a foreign key into
`players` with a unique index (at most one row per player). -/
structure StatsRow where
  id : Int
  overall : Int
  pace : Int
  shooting : Int
  passing : Int
  dribbling : Int
  defending : Int
  physical : Int
  playerId : Int
deriving DecidableEq, Repr

/-- The whole database state: the three tables plus the AUTOINCREMENT
counters used to assign fresh ids. -/
structure DB where
  clubs : List ClubRow
  players : List PlayerRow
  stats : List StatsRow
  nextClubId : Int
  nextPlayerId : Int
  nextStatsId : Int
deriving DecidableEq, Repr

/-- Errors raised by the domain services (classified by the thrown
message) and by the storage layer (Prisma constraint errors). -/
inductive Err where
  | validation
  | notFound
  | conflict
  | fk
  | uniqueViolation
  | internal
deriving DecidableEq, Repr

/-- `statistics` row attached to a player by the Prisma `include`
(`findUnique`-style lookup through the unique `playerId` index). -/
def statsFor (db : DB) (pid : Int) : Option StatsRow :=
  db.stats.find? (fun s => s.playerId == pid)

/-- `club` attached to a player by the Prisma `include`. -/
def clubFor (db : DB) (cid : Int) : Option ClubRow :=
  db.clubs.find? (fun c => c.id == cid)

/-- Players of a club, each with their statistics, as returned by the
nested `include { players: { include: { statistics } } }`. -/
def playersFor (db : DB) (cid : Int) : List (PlayerRow × Option StatsRow) :=
  (db.players.filter (fun p => p.clubId == cid)).map (fun p => (p, statsFor db p.id))

/-- A `Club` as returned by the clubs repository: the row with its
players (and their statistics) eagerly attached. -/
structure ClubView where
  id : Int
  name : String
  players : List (PlayerRow × Option StatsRow)
deriving DecidableEq, Repr

/-- A `Player` as returned by the players repository: the row with its
club and statistics eagerly attached. -/
structure PlayerView where
  id : Int
  name : String
  nationality : String
  position : String
  clubId : Int
  club : Option ClubRow
  statistics : Option StatsRow
deriving DecidableEq, Repr

/-- Build the `ClubView` of a club row in a given state. -/
def viewClub (db : DB) (c : ClubRow) : ClubView :=
  ⟨c.id, c.name, playersFor db c.id⟩

/-- Build the `PlayerView` of a player row in a given state. -/
def viewPlayer (db : DB) (p : PlayerRow) : PlayerView :=
  ⟨p.id, p.name, p.nationality, p.position, p.clubId, clubFor db p.clubId, statsFor db p.id⟩

/-! ## ClubsRepository (src/src/repositories/clubs-repository.ts) -/

/-- `ClubsRepository.findAll`: `club.findMany` with players included. -/
def ClubsRepository.findAll (db : DB) : List ClubView :=
  db.clubs.map (viewClub db)

/-- `ClubsRepository.findById`: `club.findUnique({ where: { id } })`. -/
def ClubsRepository.findById (db : DB) (id : Int) : Option ClubView :=
  (db.clubs.find? (fun c => c.id == id)).map (viewClub db)

/-- `ClubsRepository.findByName`: `club.findFirst({ where: { name } })`. -/
def ClubsRepository.findByName (db : DB) (name : String) : Option ClubView :=
  (db.clubs.find? (fun c => c.name == name)).map (viewClub db)

/-- `ClubsRepository.create`: inserts a fresh row; the unique index on
`clubs.name` makes the insert fail (Prisma P2002) on a duplicate name. -/
def ClubsRepository.create (db : DB) (name : String) : Except Err (ClubView × DB) :=
  if db.clubs.any (fun c => c.name == name) then
    .error .uniqueViolation
  else
    let row : ClubRow := ⟨db.nextClubId, name⟩
    let db2 : DB := { db with clubs := db.clubs ++ [row], nextClubId := db.nextClubId + 1 }
    .ok (viewClub db2 row, db2)

/-- `ClubsRepository.update`: `club.update({ where: { id }, data })`;
any storage error (record not found, unique-index violation on the new
name) is caught and surfaced as `null`. -/
def ClubsRepository.update (db : DB) (id : Int) (name? : Option String) :
    Option ClubView × DB :=
  match db.clubs.find? (fun c => c.id == id) with
  | none => (none, db)
  | some c =>
    match name? with
    | none => (some (viewClub db c), db)
    | some n =>
      if db.clubs.any (fun c2 => c2.id != id && c2.name == n) then
        (none, db)
      else
        (some (viewClub { db with clubs := db.clubs.map (fun r => if r.id == id then ⟨r.id, n⟩ else r) } ⟨c.id, n⟩),
          { db with clubs := db.clubs.map (fun r => if r.id == id then ⟨r.id, n⟩ else r) })

/-- `ClubsRepository.delete`: `club.delete({ where: { id } })`; the
schema's `ON DELETE CASCADE` removes the club's players and, in turn,
their statistics; a missing row is caught and surfaced as `false`. -/
def ClubsRepository.delete (db : DB) (id : Int) : Bool × DB :=
  match db.clubs.find? (fun c => c.id == id) with
  | none => (false, db)
  | some _ =>
    let db2 : DB :=
      { db with
        clubs := db.clubs.filter (fun c => c.id != id),
        players := db.players.filter (fun p => p.clubId != id),
        stats := db.stats.filter
          (fun s => !(db.players.any (fun p => p.clubId == id && p.id == s.playerId))) }
    (true, db2)

/-! ## PlayersRepository (src/unnamed/part_003) -/

/-- `CreateStatisticsData` of the players repository. -/
structure CreateStatisticsData where
  overall : Int
  pace : Int
  shooting : Int
  passing : Int
  dribbling : Int
  defending : Int
  physical : Int
deriving DecidableEq, Repr

/-- `CreatePlayerData` of the players repository. -/
structure CreatePlayerData where
  name : String
  nationality : String
  position : String
  clubId : Int
  statistics : Option CreateStatisticsData
deriving DecidableEq, Repr

/-- `UpdatePlayerData` of the players repository: all fields optional. -/
structure UpdatePlayerData where
  name : Option String
  nationality : Option String
  position : Option String
  clubId : Option Int
deriving DecidableEq, Repr

/-- `UpdateStatisticsData` of the players repository: all seven score
fields optional. -/
structure UpdateStatisticsData where
  overall : Option Int
  pace : Option Int
  shooting : Option Int
  passing : Option Int
  dribbling : Option Int
  defending : Option Int
  physical : Option Int
deriving DecidableEq, Repr

/-- `PlayersRepository.findAll`: `player.findMany` with club and
statistics included. -/
def PlayersRepository.findAll (db : DB) : List PlayerView :=
  db.players.map (viewPlayer db)

/-- `PlayersRepository.findById`. -/
def PlayersRepository.findById (db : DB) (id : Int) : Option PlayerView :=
  (db.players.find? (fun p => p.id == id)).map (viewPlayer db)

/-- `PlayersRepository.create`: nested `player.create`; the foreign key
`players.clubId → clubs.id` makes the whole insert fail (Prisma P2003)
when the referenced club does not exist, so neither the player nor the
statistics row is persisted. -/
def PlayersRepository.create (db : DB) (d : CreatePlayerData) : Except Err (PlayerView × DB) :=
  if !(db.clubs.any (fun c => c.id == d.clubId)) then
    .error .fk
  else
    let p : PlayerRow := ⟨db.nextPlayerId, d.name, d.nationality, d.position, d.clubId⟩
    match d.statistics with
    | none =>
      let db2 : DB := { db with players := db.players ++ [p], nextPlayerId := db.nextPlayerId + 1 }
      .ok (viewPlayer db2 p, db2)
    | some s =>
      let srow : StatsRow :=
        ⟨db.nextStatsId, s.overall, s.pace, s.shooting, s.passing, s.dribbling, s.defending,
          s.physical, p.id⟩
      let db2 : DB :=
        { db with
          players := db.players ++ [p],
          stats := db.stats ++ [srow],
          nextPlayerId := db.nextPlayerId + 1,
          nextStatsId := db.nextStatsId + 1 }
      .ok (viewPlayer db2 p, db2)

/-- Merge an `UpdatePlayerData` into a player row: supplied fields
replace the stored values, absent fields are untouched. -/
def mergePlayer (d : UpdatePlayerData) (r : PlayerRow) : PlayerRow :=
  ⟨r.id, d.name.getD r.name, d.nationality.getD r.nationality,
    d.position.getD r.position, d.clubId.getD r.clubId⟩

/-- `PlayersRepository.update`: `player.update({ where: { id }, data })`;
any storage error — record not found (P2025) or, when `clubId` is
supplied and no such club exists, the foreign-key violation (P2003) —
is caught and surfaced as `null` with the state unchanged. -/
def PlayersRepository.update (db : DB) (id : Int) (d : UpdatePlayerData) :
    Option PlayerView × DB :=
  match db.players.find? (fun p => p.id == id) with
  | none => (none, db)
  | some p =>
    if (match d.clubId with
        | some cid => db.clubs.any (fun c => c.id == cid)
        | none => true) then
      (some (viewPlayer { db with players := db.players.map (fun r => if r.id == id then mergePlayer d r else r) } (mergePlayer d p)),
        { db with players := db.players.map (fun r => if r.id == id then mergePlayer d r else r) })
    else
      (none, db)

/-- Merge an `UpdateStatisticsData` into a statistics row: supplied
fields replace the stored values, absent fields are untouched. -/
def mergeStats (d : UpdateStatisticsData) (s : StatsRow) : StatsRow :=
  ⟨s.id, d.overall.getD s.overall, d.pace.getD s.pace, d.shooting.getD s.shooting,
    d.passing.getD s.passing, d.dribbling.getD s.dribbling, d.defending.getD s.defending,
    d.physical.getD s.physical, s.playerId⟩

/-- `PlayersRepository.updateStatistics`:
`statistics.update({ where: { playerId }, data })` through the unique
`playerId` index; a missing row (P2025) is caught and surfaced as
`null` with the state unchanged. -/
def PlayersRepository.updateStatistics (db : DB) (pid : Int) (d : UpdateStatisticsData) :
    Option StatsRow × DB :=
  match db.stats.find? (fun s => s.playerId == pid) with
  | none => (none, db)
  | some s =>
    let db2 : DB :=
      { db with stats := db.stats.map (fun r => if r.playerId == pid then mergeStats d r else r) }
    (some (mergeStats d s), db2)

/-- `PlayersRepository.delete`. -/
def PlayersRepository.delete (db : DB) (id : Int) : Bool × DB :=
  match db.players.find? (fun p => p.id == id) with
  | none => (false, db)
  | some _ =>
    let db2 : DB :=
      { db with
        players := db.players.filter (fun p => p.id != id),
        stats := db.stats.filter (fun s => !(db.players.any (fun p => p.id == id && p.id == s.playerId))) }
    (true, db2)

/-- The filter record of `findWithFilters` / `getPlayersWithFilters`. -/
structure PlayerFilters where
  clubId : Option Int
  position : Option String
  nationality : Option String
  minOverall : Option Int
  maxOverall : Option Int
deriving DecidableEq, Repr

/-- The `where` object built by `PlayersRepository.findWithFilters`,
applied to one player row.  Each `if (filters.x)` in the source tests
JavaScript truthiness, so a supplied `0` or `""` adds no condition; the
relation filter `where.statistics = { overall: { gte, lte } }` matches
only players that have a statistics row satisfying the bounds. -/
def whereMatch (db : DB) (f : PlayerFilters) (p : PlayerRow) : Bool :=
  (match f.clubId with
   | some c => if c == 0 then true else p.clubId == c
   | none => true)
  &&
  (match f.position with
   | some s => if s == "" then true else p.position == s
   | none => true)
  &&
  (match f.nationality with
   | some s => if s == "" then true else p.nationality == s
   | none => true)
  &&
  (let minT : Option Int := match f.minOverall with
     | some m => if m == 0 then none else some m
     | none => none
   let maxT : Option Int := match f.maxOverall with
     | some m => if m == 0 then none else some m
     | none => none
   if minT.isSome || maxT.isSome then
     match statsFor db p.id with
     | some st =>
       (match minT with
        | some m => decide (m ≤ st.overall)
        | none => true)
       &&
       (match maxT with
        | some m => decide (st.overall ≤ m)
        | none => true)
     | none => false
   else true)

/-- `PlayersRepository.findWithFilters`: `player.findMany` under the
built `where` object, club and statistics included. -/
def PlayersRepository.findWithFilters (db : DB) (f : PlayerFilters) : List PlayerView :=
  (db.players.filter (whereMatch db f)).map (viewPlayer db)

/-! ## ClubsService (src/src/services/clubs-service.ts) -/

/-- `ClubsService.getClubById`: an invalid id throws inside the `try`
and the `catch` rethrows a generic failure; a missing club is returned
as `null`, not an error. -/
def ClubsService.getClubById (db : DB) (id : Int) : Except Err (Option ClubView) :=
  if id ≤ 0 then .error .internal
  else .ok (ClubsRepository.findById db id)

/-- `ClubsService.createClub`: rejects an empty (after trim) name,
then looks up the trimmed name and rejects a duplicate before
inserting the trimmed name. -/
def ClubsService.createClub (db : DB) (name : String) : Except Err (ClubView × DB) :=
  if jsTrim name == "" then .error .validation
  else
    match ClubsRepository.findByName db (jsTrim name) with
    | some _ => .error .conflict
    | none => ClubsRepository.create db (jsTrim name)

/-- `ClubsService.updateClub`: validates the id and a supplied name;
requires the club to exist; when the supplied name is truthy and
differs (as a raw string) from the current name, looks up the trimmed
name among all clubs and rejects on a hit; then updates with the
trimmed name. -/
def ClubsService.updateClub (db : DB) (id : Int) (name? : Option String) :
    Except Err (Option ClubView × DB) :=
  if id ≤ 0 then .error .validation
  else if (match name? with
           | some n => jsTrim n == ""
           | none => false) then .error .validation
  else
    match ClubsRepository.findById db id with
    | none => .error .notFound
    | some existing =>
      if (match name? with
          | some n => n != "" && n != existing.name && (ClubsRepository.findByName db (jsTrim n)).isSome
          | none => false) then .error .conflict
      else .ok (ClubsRepository.update db id (name?.map jsTrim))

/-- `ClubsService.deleteClub`: validates the id, requires the club to
exist, and rejects the deletion while the club owns players — before
any delete reaches the repository. -/
def ClubsService.deleteClub (db : DB) (id : Int) : Except Err (Bool × DB) :=
  if id ≤ 0 then .error .validation
  else
    match ClubsRepository.findById db id with
    | none => .error .notFound
    | some c =>
      if c.players.length > 0 then .error .conflict
      else .ok (ClubsRepository.delete db id)

/-! ## PlayersService (src/src/services/players-service.ts) -/

/-- The `validRange` helper of the players service. -/
def validRange (v : Int) : Bool :=
  decide (0 ≤ v) && decide (v ≤ 100)

/-- All seven fields of a statistics payload within `[0, 100]`. -/
def statsAllValid (s : CreateStatisticsData) : Bool :=
  validRange s.overall && validRange s.pace && validRange s.shooting && validRange s.passing &&
    validRange s.dribbling && validRange s.defending && validRange s.physical

/-- `PlayersService.getAllPlayers`. -/
def PlayersService.getAllPlayers (db : DB) : List PlayerView :=
  PlayersRepository.findAll db

/-- `PlayersService.createPlayer`: validates the three string fields
(non-empty after trim), the positive `clubId`, and — when supplied —
the seven statistics fields, then delegates to the repository with
trimmed strings. -/
def PlayersService.createPlayer (db : DB) (d : CreatePlayerData) : Except Err (PlayerView × DB) :=
  if jsTrim d.name == "" then .error .validation
  else if jsTrim d.nationality == "" then .error .validation
  else if jsTrim d.position == "" then .error .validation
  else if d.clubId ≤ 0 then .error .validation
  else if (match d.statistics with
           | some s => !(statsAllValid s)
           | none => false) then .error .validation
  else
    PlayersRepository.create db
      { name := jsTrim d.name, nationality := jsTrim d.nationality, position := jsTrim d.position,
        clubId := d.clubId, statistics := d.statistics }

/-- `PlayersService.updatePlayer`: validates the id and each supplied
string field (non-empty after trim); `clubId` is passed through without
validation; delegates with trimmed strings. -/
def PlayersService.updatePlayer (db : DB) (id : Int) (d : UpdatePlayerData) :
    Except Err (Option PlayerView × DB) :=
  if id ≤ 0 then .error .validation
  else if (match d.name with
           | some s => jsTrim s == ""
           | none => false) then .error .validation
  else if (match d.nationality with
           | some s => jsTrim s == ""
           | none => false) then .error .validation
  else if (match d.position with
           | some s => jsTrim s == ""
           | none => false) then .error .validation
  else
    .ok (PlayersRepository.update db id
      { d with
        name := d.name.map jsTrim,
        nationality := d.nationality.map jsTrim,
        position := d.position.map jsTrim })

/-- The supplied (non-`undefined`) values of an `UpdateStatisticsData`,
as collected by `Object.values(data).filter(val => val !== undefined)`. -/
def suppliedStats (d : UpdateStatisticsData) : List Int :=
  [d.overall, d.pace, d.shooting, d.passing, d.dribbling, d.defending, d.physical].filterMap id

/-- `PlayersService.updatePlayerStatistics`: validates the id and every
supplied score; delegates and reports the repository's `null`/row
result as a boolean. -/
def PlayersService.updatePlayerStatistics (db : DB) (pid : Int) (d : UpdateStatisticsData) :
    Except Err (Bool × DB) :=
  if pid ≤ 0 then .error .validation
  else if (suppliedStats d).any (fun v => !(validRange v)) then .error .validation
  else
    .ok ((PlayersRepository.updateStatistics db pid d).1.isSome,
      (PlayersRepository.updateStatistics db pid d).2)

/-- `PlayersService.getPlayersWithFilters`: validates a supplied
`clubId` (positive), supplied bounds (each within `[0, 100]`) and their
order, then delegates to `findWithFilters`. -/
def PlayersService.getPlayersWithFilters (db : DB) (f : PlayerFilters) :
    Except Err (List PlayerView) :=
  if (match f.clubId with
      | some c => decide (c ≤ 0)
      | none => false) then .error .validation
  else if (match f.minOverall with
           | some m => decide (m < 0) || decide (100 < m)
           | none => false) then .error .validation
  else if (match f.maxOverall with
           | some m => decide (m < 0) || decide (100 < m)
           | none => false) then .error .validation
  else if (match f.minOverall, f.maxOverall with
           | some a, some b => decide (b < a)
           | _, _ => false) then .error .validation
  else .ok (PlayersRepository.findWithFilters db f)

/-! ## getPlayersStatistics (src/src/services/players-service.ts) -/

/-- JavaScript `a || b` on numbers: `a` when truthy, else `b`. -/
def jsOrInt (a b : Int) : Int :=
  if a == 0 then b else a

/-- The aggregate record returned by `getPlayersStatistics`; the mean is
kept exact as a rational. -/
structure PlayersStatsResult where
  totalPlayers : Nat
  averageOverall : ℚ
  topPositions : List (String × Nat)
  topNationalities : List (String × Nat)
deriving DecidableEq, Repr

/-- JavaScript `Math.round`: round half towards positive infinity. -/
def jsRound (x : ℚ) : Int :=
  Int.floor (x + 1 / 2)

/-- `Math.round(x * 100) / 100`: round to 2 decimal places. -/
def round2 (x : ℚ) : ℚ :=
  (jsRound (x * 100) : ℚ) / 100

/-- One step of the `reduce` that groups players by a key: a plain
JavaScript object acts as an association list in insertion order,
`acc[k] = (acc[k] || 0) + 1`. -/
def bump (k : String) : List (String × Nat) → List (String × Nat)
  | [] => [(k, 1)]
  | (k2, n) :: rest => if k2 == k then (k2, n + 1) :: rest else (k2, n) :: bump k rest

/-- The grouping `reduce` of `getPlayersStatistics`. -/
def countBy (key : PlayerView → String) (l : List PlayerView) : List (String × Nat) :=
  l.foldl (fun acc x => bump (key x) acc) []

/-- The order the comparator `(a, b) => b.count - a.count` sorts by:
count descending. -/
def countGE (a b : String × Nat) : Prop :=
  b.2 ≤ a.2

instance : DecidableRel countGE := fun a b => Nat.decLe b.2 a.2

instance : IsTotal (String × Nat) countGE :=
  ⟨fun a b => Nat.le_total b.2 a.2⟩

instance : IsTrans (String × Nat) countGE :=
  ⟨fun _ _ _ h1 h2 => Nat.le_trans h2 h1⟩

/-- The comparator `(a, b) => b.count - a.count` orders by count
descending; `Array.prototype.sort` is stable, which insertion sort
realises exactly. -/
def sortByCountDesc (l : List (String × Nat)) : List (String × Nat) :=
  l.insertionSort countGE

/-- `.sort(...).slice(0, 5)` of the grouped entries. -/
def topFive (l : List (String × Nat)) : List (String × Nat) :=
  (sortByCountDesc l).take 5

/-- The `reduce` of `getPlayersStatistics` that sums
`player.statistics?.overall || 0` over the players with statistics. -/
def sumOverall (l : List PlayerView) : Int :=
  l.foldl
    (fun acc p =>
      acc + (match p.statistics with
             | some s => jsOrInt s.overall 0
             | none => 0))
    0

/-- `PlayersService.getPlayersStatistics`: total count, mean `overall`
over players that have statistics (rounded to 2 decimals, `0` when none
has), and the five most frequent positions and nationalities. -/
def PlayersService.getPlayersStatistics (db : DB) : PlayersStatsResult :=
  { totalPlayers := (PlayersRepository.findAll db).length,
    averageOverall := round2
      (if ((PlayersRepository.findAll db).filter (fun p => p.statistics.isSome)).length > 0 then
        (sumOverall ((PlayersRepository.findAll db).filter (fun p => p.statistics.isSome)) : ℚ) /
          (((PlayersRepository.findAll db).filter (fun p => p.statistics.isSome)).length : ℚ)
      else 0),
    topPositions := topFive (countBy (fun p => p.position) (PlayersRepository.findAll db)),
    topNationalities := topFive (countBy (fun p => p.nationality) (PlayersRepository.findAll db)) }

/-! ## Claim-side (specification) definitions

These follow the words of the specification, to be compared with the
definitions above that are translated from the source. -/

-- Decidable equality on `Except`, used to state concrete results.
deriving instance DecidableEq for Except

/-- Database well-formedness: what every state reachable through the
storage layer satisfies — primary keys are unique, the unique indexes
on `clubs.name` and `statistics.playerId` hold, the foreign keys
resolve, and the AUTOINCREMENT counters are ahead of every assigned
id. -/
def DB.WF (db : DB) : Prop :=
  (db.clubs.map (fun c => c.id)).Nodup ∧
  (db.clubs.map (fun c => c.name)).Nodup ∧
  (db.players.map (fun p => p.id)).Nodup ∧
  (db.stats.map (fun s => s.playerId)).Nodup ∧
  (∀ p ∈ db.players, ∃ c ∈ db.clubs, c.id = p.clubId) ∧
  (∀ s ∈ db.stats, ∃ p ∈ db.players, p.id = s.playerId) ∧
  (∀ c ∈ db.clubs, c.id < db.nextClubId) ∧
  (∀ p ∈ db.players, p.id < db.nextPlayerId)

instance (db : DB) : Decidable db.WF := by
  unfold DB.WF
  infer_instance

/-- The filter predicate the specification describes: every supplied
filter must hold, with AND semantics — `clubId`, `position` and
`nationality` by exact match, and `overall` between the supplied bounds
inclusive (so a supplied bound excludes players without statistics). -/
def specMatches (f : PlayerFilters) (v : PlayerView) : Bool :=
  (match f.clubId with
   | some c => v.clubId == c
   | none => true)
  &&
  (match f.position with
   | some s => v.position == s
   | none => true)
  &&
  (match f.nationality with
   | some s => v.nationality == s
   | none => true)
  &&
  (match f.minOverall with
   | some m =>
     match v.statistics with
     | some st => decide (m ≤ st.overall)
     | none => false
   | none => true)
  &&
  (match f.maxOverall with
   | some m =>
     match v.statistics with
     | some st => decide (st.overall ≤ m)
     | none => false
   | none => true)

/-- The filter record with no filter supplied. -/
def noFilters : PlayerFilters :=
  ⟨none, none, none, none, none⟩

/-- The statistics partial update that supplies none of the seven
fields. -/
def emptyStatsUpdate : UpdateStatisticsData :=
  ⟨none, none, none, none, none, none, none⟩

/-- Number of occurrences of a key in a list of keys. -/
def occCount (k : String) : List String → Nat
  | [] => 0
  | v :: vs => (if v == k then 1 else 0) + occCount k vs

/-- The distinct values of a list, kept in first-encounter order. -/
def firstDedup (l : List String) : List String :=
  l.foldl (fun acc a => if acc.contains a then acc else acc ++ [a]) []

/-- The specification's description of the grouped entries: each
distinct value, in first-encounter order, with its number of
occurrences. -/
def specCounts (key : PlayerView → String) (players : List PlayerView) : List (String × Nat) :=
  (firstDedup (players.map key)).map (fun v => (v, occCount v (players.map key)))

/-- The specification's description of the top-5 aggregate: the five
most frequent distinct values with their counts, by count descending,
ties kept in first-encounter order. -/
def specTopFive (key : PlayerView → String) (players : List PlayerView) : List (String × Nat) :=
  (sortByCountDesc (specCounts key players)).take 5

/-- The `overall` score of a player's statistics (`0` when absent; only
used on players that have statistics). -/
def statOverall (v : PlayerView) : Int :=
  match v.statistics with
  | some s => s.overall
  | none => 0

/-- The specification's description of `averageOverall`: the arithmetic
mean of `overall` over exactly the players that have a statistics
record, rounded to 2 decimal places, and `0` when no player has
statistics. -/
def specAverageOverall (players : List PlayerView) : ℚ :=
  let ws := players.filter (fun p => p.statistics.isSome)
  if ws.length = 0 then 0
  else round2 (((ws.map (fun p => (statOverall p : ℚ))).sum) / (ws.length : ℚ))

/-- A small concrete state used to instantiate the theorems: club 1 has
no players, club 2 owns player 1, who has a statistics row. -/
def dbW : DB :=
  ⟨[⟨1, "Barcelona"⟩, ⟨2, "Santos"⟩],
   [⟨1, "Pele", "BR", "ST", 2⟩],
   [⟨1, 95, 90, 96, 93, 97, 60, 76, 1⟩],
   3, 2, 2⟩

/-- Concrete state for the `updateClub` counterexample: a single club
whose name is \"Foo\". -/
def dbC4 : DB :=
  ⟨[⟨1, "Foo"⟩], [], [], 2, 1, 1⟩

/-- Concrete state for the `updatePlayer` counterexample: one club and
one player belonging to it. -/
def dbC5 : DB :=
  ⟨[⟨1, "FC"⟩], [⟨1, "P", "BR", "ST", 1⟩], [], 2, 2, 1⟩

/-- The partial player update supplying only a negative `clubId`. -/
def updC5 : UpdatePlayerData :=
  ⟨none, none, none, some (-1)⟩

/-- The filter record supplying only `minOverall = 0`. -/
def fMin0 : PlayerFilters :=
  ⟨none, none, none, some 0, none⟩

/-- The empty database state. -/
def dbEmpty : DB :=
  ⟨[], [], [], 1, 1, 1⟩

/-! ## Helper lemmas -/

lemma find?_filter_ne_id (l : List ClubRow) (id : Int) :
    (l.filter (fun c => c.id != id)).find? (fun c => c.id == id) = none := by
  rw [List.find?_eq_none]
  intro x hx
  have h2 := (List.mem_filter.mp hx).2
  simp only [bne_iff_ne, ne_eq] at h2
  simp [h2]

lemma findById_inv {db : DB} {id : Int} {c : ClubView}
    (h : ClubsRepository.findById db id = some c) :
    ∃ row, db.clubs.find? (fun r => r.id == id) = some row ∧ viewClub db row = c := by
  unfold ClubsRepository.findById at h
  exact Option.map_eq_some'.mp h

/-! ## C10: empty statistics partial update -/

/-- C10.  For every playerId > 0, `updatePlayerStatistics` with an
empty partial (none of the seven score fields supplied) never fails
validation: it returns true exactly when a statistics row owned by that
player exists, and the state — in particular every stored score — is
unchanged. -/
theorem PlayersService.updatePlayerStatistics_empty_spec (db : DB) (pid : Int) (hpid : 0 < pid) :
    PlayersService.updatePlayerStatistics db pid emptyStatsUpdate =
      .ok (db.stats.any (fun s => s.playerId == pid), db) := by
  unfold PlayersService.updatePlayerStatistics
  rw [if_neg (by omega)]
  have hsup : (suppliedStats emptyStatsUpdate).any (fun v => !(validRange v)) = false := rfl
  rw [hsup]
  simp only [Bool.false_eq_true, if_false]
  unfold PlayersRepository.updateStatistics
  cases hfind : db.stats.find? (fun s => s.playerId == pid) with
  | none =>
    have hany : db.stats.any (fun s => s.playerId == pid) = false := by
      rw [List.any_eq_false]
      intro x hx
      simpa using List.find?_eq_none.mp hfind x hx
    simp [hany]
  | some s =>
    have hany : db.stats.any (fun s => s.playerId == pid) = true := by
      have hmem := List.mem_of_find?_eq_some hfind
      have hps := List.find?_some hfind
      exact List.any_eq_true.mpr ⟨s, hmem, hps⟩
    have hmap : db.stats.map
        (fun r => if r.playerId == pid then mergeStats emptyStatsUpdate r else r) = db.stats := by
      have hcongr : ∀ r ∈ db.stats,
          (if r.playerId == pid then mergeStats emptyStatsUpdate r else r) = r := by
        intro r _
        split <;> rfl
      rw [List.map_congr_left hcongr, List.map_id']
    show Except.ok (true,
      { db with stats := db.stats.map (fun r => if r.playerId == pid then mergeStats emptyStatsUpdate r else r) }) =
      Except.ok (db.stats.any (fun s => s.playerId == pid), db)
    rw [hmap, hany]

/-- C10 witness at a concrete state. -/
theorem PlayersService.updatePlayerStatistics_empty_spec_witness :
    PlayersService.updatePlayerStatistics dbW 1 emptyStatsUpdate = .ok (true, dbW) :=
  PlayersService.updatePlayerStatistics_empty_spec dbW 1 (by decide)

/-! ## C3: statistics partial update, range validation and reporting -/

/-- C3.  For every playerId > 0 and partial statistics update: a
supplied score outside `[0, 100]` fails the whole call with a
validation error and no field is written (the error carries no new
state); with all supplied scores in range the call returns true exactly
when a statistics row owned by the player exists — updating its
supplied fields and keeping the rest — and false, without raising,
when none exists. -/
theorem PlayersService.updatePlayerStatistics_spec (db : DB) (pid : Int)
    (d : UpdateStatisticsData) (hpid : 0 < pid) :
    ((∃ v ∈ suppliedStats d, validRange v = false) →
        PlayersService.updatePlayerStatistics db pid d = .error .validation)
    ∧ ((∀ v ∈ suppliedStats d, validRange v = true) →
        ((∀ s ∈ db.stats, s.playerId ≠ pid) →
            PlayersService.updatePlayerStatistics db pid d = .ok (false, db))
        ∧ (∀ s, db.stats.find? (fun r => r.playerId == pid) = some s →
            PlayersService.updatePlayerStatistics db pid d =
              .ok (true, { db with stats := db.stats.map (fun r => if r.playerId == pid then mergeStats d r else r) }))) := by
  constructor
  · rintro ⟨v, hv, hbad⟩
    have hany : (suppliedStats d).any (fun v => !(validRange v)) = true :=
      List.any_eq_true.mpr ⟨v, hv, by simp [hbad]⟩
    unfold PlayersService.updatePlayerStatistics
    rw [if_neg (by omega)]
    simp [hany]
  · intro hok
    have hany : (suppliedStats d).any (fun v => !(validRange v)) = false := by
      rw [List.any_eq_false]
      intro v hv
      simp [hok v hv]
    constructor
    · intro hnone
      have hfind : db.stats.find? (fun s => s.playerId == pid) = none := by
        rw [List.find?_eq_none]
        intro s hs
        simpa using hnone s hs
      unfold PlayersService.updatePlayerStatistics PlayersRepository.updateStatistics
      rw [if_neg (by omega)]
      simp [hany, hfind]
    · intro s hfind
      unfold PlayersService.updatePlayerStatistics PlayersRepository.updateStatistics
      rw [if_neg (by omega)]
      simp [hany, hfind]

/-- C3 witness: an out-of-range `overall` of 101 is rejected at a
concrete state. -/
theorem PlayersService.updatePlayerStatistics_spec_witness :
    PlayersService.updatePlayerStatistics dbW 1
      ⟨some 101, none, none, none, none, none, none⟩ = .error .validation :=
  (PlayersService.updatePlayerStatistics_spec dbW 1
    ⟨some 101, none, none, none, none, none, none⟩ (by decide)).1 (by decide)

/-! ## C1: deleteClub -/

/-- C1.  For every state and club id > 0: when the club exists and owns
players, `deleteClub` fails with the conflict error before any delete
reaches storage (the error carries no new state, so club and players
are unchanged); when the club exists with zero players it returns true
and a subsequent `getClubById` reports not-found; when no such club
exists it fails with the not-found error. -/
theorem ClubsService.deleteClub_spec (db : DB) (id : Int) (hid : 0 < id) :
    (∀ c, ClubsRepository.findById db id = some c → c.players ≠ [] →
        ClubsService.deleteClub db id = .error .conflict)
    ∧ (∀ c, ClubsRepository.findById db id = some c → c.players = [] →
        ∃ db2, ClubsService.deleteClub db id = .ok (true, db2) ∧
          ClubsService.getClubById db2 id = .ok none)
    ∧ (ClubsRepository.findById db id = none →
        ClubsService.deleteClub db id = .error .notFound) := by
  refine ⟨?_, ?_, ?_⟩
  · intro c hc hne
    have hlen : 0 < c.players.length := List.length_pos.mpr hne
    unfold ClubsService.deleteClub
    rw [if_neg (by omega), hc]
    simp [hlen]
  · intro c hc hnil
    obtain ⟨row, hrow, hv⟩ := findById_inv hc
    have hdel : ClubsRepository.delete db id =
        (true, { db with
          clubs := db.clubs.filter (fun c => c.id != id),
          players := db.players.filter (fun p => p.clubId != id),
          stats := db.stats.filter
            (fun s => !(db.players.any (fun p => p.clubId == id && p.id == s.playerId))) }) := by
      unfold ClubsRepository.delete
      rw [hrow]
    refine ⟨{ db with
        clubs := db.clubs.filter (fun c => c.id != id),
        players := db.players.filter (fun p => p.clubId != id),
        stats := db.stats.filter
          (fun s => !(db.players.any (fun p => p.clubId == id && p.id == s.playerId))) }, ?_, ?_⟩
    · unfold ClubsService.deleteClub
      rw [if_neg (by omega), hc]
      simp [hnil, hdel]
    · unfold ClubsService.getClubById ClubsRepository.findById
      rw [if_neg (by omega)]
      simp [find?_filter_ne_id]
  · intro hnone
    unfold ClubsService.deleteClub
    rw [if_neg (by omega), hnone]

/-- C1 witness: club 1 of the concrete state owns no players; deleting
it succeeds and it is afterwards not found. -/
theorem ClubsService.deleteClub_spec_witness :
    ∃ db2, ClubsService.deleteClub dbW 1 = .ok (true, db2) ∧
      ClubsService.getClubById db2 1 = .ok none :=
  (ClubsService.deleteClub_spec dbW 1 (by decide)).2.1 (viewClub dbW ⟨1, "Barcelona"⟩) rfl rfl

/-! ## C2: createClub -/

/-- C2.  For every well-formed state and name: `createClub` fails with
a validation error when the trimmed name is empty; it fails with the
conflict error when a club with the trimmed name already exists (the
error carries no new state, so no club is inserted); otherwise it
persists and returns a new club carrying the trimmed name and an empty
player list — and creating the same name again on the new state fails
with the conflict error. -/
theorem ClubsService.createClub_spec (db : DB) (name : String) (hwf : db.WF) :
    (jsTrim name = "" → ClubsService.createClub db name = .error .validation)
    ∧ (jsTrim name ≠ "" →
        ((∃ c ∈ db.clubs, c.name = jsTrim name) →
            ClubsService.createClub db name = .error .conflict)
        ∧ ((∀ c ∈ db.clubs, c.name ≠ jsTrim name) →
            ∃ v db2,
              ClubsService.createClub db name = .ok (v, db2) ∧
              v.name = jsTrim name ∧ v.players = [] ∧
              db2.clubs = db.clubs ++ [⟨db.nextClubId, jsTrim name⟩] ∧
              db2.players = db.players ∧ db2.stats = db.stats ∧
              ClubsService.createClub db2 name = .error .conflict)) := by
  constructor
  · intro hemp
    unfold ClubsService.createClub
    simp [hemp]
  · intro hne
    have hbeq : (jsTrim name == "") = false := beq_eq_false_iff_ne.mpr hne
    constructor
    · rintro ⟨c, hc, hcname⟩
      cases hfind : db.clubs.find? (fun r => r.name == jsTrim name) with
      | none =>
        exfalso
        have := List.find?_eq_none.mp hfind c hc
        simp [hcname] at this
      | some r =>
        unfold ClubsService.createClub ClubsRepository.findByName
        rw [hfind]
        simp [hbeq]
    · intro hnodup
      have hfind : db.clubs.find? (fun r => r.name == jsTrim name) = none := by
        rw [List.find?_eq_none]
        intro c hc
        simp [hnodup c hc]
      have hany : db.clubs.any (fun c => c.name == jsTrim name) = false := by
        rw [List.any_eq_false]
        intro c hc
        simp [hnodup c hc]
      have hfresh : ∀ p ∈ db.players, (p.clubId == db.nextClubId) = false := by
        intro p hp
        obtain ⟨-, -, -, -, hfk, -, hlt, -⟩ := hwf
        obtain ⟨c, hcmem, hcid⟩ := hfk p hp
        have hc2 := hlt c hcmem
        rw [beq_eq_false_iff_ne]
        omega
      have hplayers : db.players.filter (fun p => p.clubId == db.nextClubId) = [] := by
        rw [List.filter_eq_nil_iff]
        intro p hp
        simp [hfresh p hp]
      refine ⟨viewClub { db with clubs := db.clubs ++ [⟨db.nextClubId, jsTrim name⟩], nextClubId := db.nextClubId + 1 } ⟨db.nextClubId, jsTrim name⟩, { db with clubs := db.clubs ++ [⟨db.nextClubId, jsTrim name⟩], nextClubId := db.nextClubId + 1 }, ?_, rfl, ?_, rfl, rfl, rfl, ?_⟩
      · unfold ClubsService.createClub ClubsRepository.findByName ClubsRepository.create
        rw [hfind]
        simp only [hbeq, Bool.false_eq_true, if_false, hany]
        rfl
      · show (db.players.filter (fun p => p.clubId == db.nextClubId)).map _ = []
        rw [hplayers]
        rfl
      · have hfind2 : (db.clubs ++ [(⟨db.nextClubId, jsTrim name⟩ : ClubRow)]).find?
            (fun r => r.name == jsTrim name) = some ⟨db.nextClubId, jsTrim name⟩ := by
          rw [List.find?_append, hfind]
          simp
        unfold ClubsService.createClub ClubsRepository.findByName
        simp [hbeq, hfind2]

/-- C2 witness: creating a club with a fresh (untrimmed) name succeeds
on the concrete state and a second identical creation conflicts. -/
theorem ClubsService.createClub_spec_witness :
    ∃ v db2,
      ClubsService.createClub dbW " Flamengo " = .ok (v, db2) ∧
      v.name = jsTrim " Flamengo " ∧ v.players = [] ∧
      db2.clubs = dbW.clubs ++ [⟨dbW.nextClubId, jsTrim " Flamengo "⟩] ∧
      db2.players = dbW.players ∧ db2.stats = dbW.stats ∧
      ClubsService.createClub db2 " Flamengo " = .error .conflict :=
  ((ClubsService.createClub_spec dbW " Flamengo " (by decide)).2 (by decide)).2 (by decide)

/-! ## C9: updateClub frame -/

/-- C9.  Every successful `updateClub(id, {name})` call changes only the
name of the addressed club: the club keeps its identifier and its set
of owned players, every other club row is untouched, and the player and
statistics tables and the id counters are unchanged. -/
theorem ClubsService.updateClub_frame (db : DB) (id : Int) (name : String) (v : ClubView)
    (db2 : DB) (h : ClubsService.updateClub db id (some name) = .ok (some v, db2)) :
    db2.players = db.players ∧ db2.stats = db.stats ∧
    db2.nextClubId = db.nextClubId ∧ db2.nextPlayerId = db.nextPlayerId ∧
    db2.nextStatsId = db.nextStatsId ∧
    db2.clubs = db.clubs.map (fun r => if r.id == id then ⟨r.id, jsTrim name⟩ else r) ∧
    v.id = id ∧ v.name = jsTrim name ∧ v.players = playersFor db id := by
  by_cases h1 : id ≤ 0
  · have e : ClubsService.updateClub db id (some name) = .error .validation := by
      unfold ClubsService.updateClub
      rw [if_pos h1]
    rw [e] at h
    simp at h
  by_cases h2 : jsTrim name = ""
  · have e : ClubsService.updateClub db id (some name) = .error .validation := by
      unfold ClubsService.updateClub
      rw [if_neg h1]
      simp [h2]
    rw [e] at h
    simp at h
  cases hfindid : ClubsRepository.findById db id with
  | none =>
    have e : ClubsService.updateClub db id (some name) = .error .notFound := by
      unfold ClubsService.updateClub
      rw [if_neg h1]
      simp [h2, hfindid]
    rw [e] at h
    simp at h
  | some existing =>
    by_cases hcol : (name != "" && name != existing.name &&
        (ClubsRepository.findByName db (jsTrim name)).isSome) = true
    · have e : ClubsService.updateClub db id (some name) = .error .conflict := by
        unfold ClubsService.updateClub
        rw [if_neg h1]
        simp only [hfindid]
        simp [h2, hcol]
      rw [e] at h
      simp at h
    · cases hfind : db.clubs.find? (fun c => c.id == id) with
      | none =>
        exfalso
        unfold ClubsRepository.findById at hfindid
        rw [hfind] at hfindid
        simp at hfindid
      | some crow =>
        have hcrow : crow.id = id := by
          have hp := List.find?_some hfind
          simpa using hp
        by_cases huniq : (db.clubs.any (fun c2 => c2.id != id && c2.name == jsTrim name)) = true
        · have e : ClubsService.updateClub db id (some name) = .ok (none, db) := by
            unfold ClubsService.updateClub ClubsRepository.update
            rw [if_neg h1]
            simp only [hfindid, hfind]
            simp [h2, hcol, huniq]
          rw [e] at h
          simp at h
        · have e : ClubsService.updateClub db id (some name) =
              .ok (some (viewClub { db with clubs := db.clubs.map (fun r => if r.id == id then ⟨r.id, jsTrim name⟩ else r) } ⟨crow.id, jsTrim name⟩),
                { db with clubs := db.clubs.map (fun r => if r.id == id then ⟨r.id, jsTrim name⟩ else r) }) := by
            unfold ClubsService.updateClub ClubsRepository.update
            rw [if_neg h1]
            simp only [hfindid, hfind]
            simp [h2, hcol, huniq]
          rw [e] at h
          have hpair : (viewClub { db with clubs := db.clubs.map (fun r => if r.id == id then ⟨r.id, jsTrim name⟩ else r) } ⟨crow.id, jsTrim name⟩ = v)
              ∧ ({ db with clubs := db.clubs.map (fun r => if r.id == id then ⟨r.id, jsTrim name⟩ else r) } : DB) = db2 := by
            have h3 := h
            simp only [Except.ok.injEq, Prod.mk.injEq, Option.some.injEq] at h3
            exact h3
          obtain ⟨hv, hdb⟩ := hpair
          subst hv
          subst hdb
          refine ⟨rfl, rfl, rfl, rfl, rfl, rfl, hcrow, rfl, ?_⟩
          show playersFor _ crow.id = playersFor db id
          rw [hcrow]
          rfl

/-- C9 witness: renaming club 2 of the concrete state succeeds and the
frame conditions hold there. -/
theorem ClubsService.updateClub_frame_witness :
    ({ dbW with clubs := dbW.clubs.map (fun r => if r.id == 2 then ⟨r.id, jsTrim "Santos FC"⟩ else r) } : DB).players = dbW.players ∧
    ({ dbW with clubs := dbW.clubs.map (fun r => if r.id == 2 then ⟨r.id, jsTrim "Santos FC"⟩ else r) } : DB).stats = dbW.stats ∧
    ({ dbW with clubs := dbW.clubs.map (fun r => if r.id == 2 then ⟨r.id, jsTrim "Santos FC"⟩ else r) } : DB).nextClubId = dbW.nextClubId ∧
    ({ dbW with clubs := dbW.clubs.map (fun r => if r.id == 2 then ⟨r.id, jsTrim "Santos FC"⟩ else r) } : DB).nextPlayerId = dbW.nextPlayerId ∧
    ({ dbW with clubs := dbW.clubs.map (fun r => if r.id == 2 then ⟨r.id, jsTrim "Santos FC"⟩ else r) } : DB).nextStatsId = dbW.nextStatsId ∧
    ({ dbW with clubs := dbW.clubs.map (fun r => if r.id == 2 then ⟨r.id, jsTrim "Santos FC"⟩ else r) } : DB).clubs = dbW.clubs.map (fun r => if r.id == 2 then ⟨r.id, jsTrim "Santos FC"⟩ else r) ∧
    (viewClub { dbW with clubs := dbW.clubs.map (fun r => if r.id == 2 then ⟨r.id, jsTrim "Santos FC"⟩ else r) } ⟨2, jsTrim "Santos FC"⟩).id = 2 ∧
    (viewClub { dbW with clubs := dbW.clubs.map (fun r => if r.id == 2 then ⟨r.id, jsTrim "Santos FC"⟩ else r) } ⟨2, jsTrim "Santos FC"⟩).name = jsTrim "Santos FC" ∧
    (viewClub { dbW with clubs := dbW.clubs.map (fun r => if r.id == 2 then ⟨r.id, jsTrim "Santos FC"⟩ else r) } ⟨2, jsTrim "Santos FC"⟩).players = playersFor dbW 2 :=
  ClubsService.updateClub_frame dbW 2 "Santos FC"
    (viewClub { dbW with clubs := dbW.clubs.map (fun r => if r.id == 2 then ⟨r.id, jsTrim "Santos FC"⟩ else r) } ⟨2, jsTrim "Santos FC"⟩)
    { dbW with clubs := dbW.clubs.map (fun r => if r.id == 2 then ⟨r.id, jsTrim "Santos FC"⟩ else r) } rfl

/-! ## C4: updateClub uniqueness check -/

/-- C4 counterexample.  Supplying a name that trims to the club's own
current name does fail with the conflict error: the source compares the
raw supplied name against the current name but looks the trimmed name
up among all clubs, finding the club itself. -/
theorem ClubsService.updateClub_trim_collision_cex :
    ClubsService.updateClub dbC4 1 (some " Foo") = .error .conflict := by decide

/-- C4 amended.  For an existing club and a non-empty supplied name:
the uniqueness check runs only when the raw supplied name differs from
the club's current name, and it looks the trimmed name up among all
clubs including the club itself — so the call fails with the conflict
error exactly when the raw name differs and some club (possibly the
addressed one) carries the trimmed name; when no club carries the
trimmed name the update succeeds and returns the renamed club. -/
theorem ClubsService.updateClub_uniqueness_spec (db : DB) (id : Int) (name : String)
    (c : ClubView) (hid : 0 < id) (hc : ClubsRepository.findById db id = some c)
    (hne : jsTrim name ≠ "") :
    (ClubsService.updateClub db id (some name) = .error .conflict ↔
      (name ≠ c.name ∧ ∃ c2 ∈ db.clubs, c2.name = jsTrim name))
    ∧ ((∀ c2 ∈ db.clubs, c2.name ≠ jsTrim name) →
        ∃ v db2, ClubsService.updateClub db id (some name) = .ok (some v, db2) ∧
          v.name = jsTrim name) := by
  have h1 : ¬ id ≤ 0 := by omega
  have hname_ne : name ≠ "" := by
    intro hnil
    rw [hnil] at hne
    exact hne rfl
  constructor
  · constructor
    · intro herr
      by_cases hcol : (name != "" && name != c.name &&
          (ClubsRepository.findByName db (jsTrim name)).isSome) = true
      · have hcol2 := hcol
        simp only [Bool.and_eq_true, bne_iff_ne, ne_eq] at hcol2
        obtain ⟨⟨-, hraw⟩, hsome⟩ := hcol2
        refine ⟨hraw, ?_⟩
        unfold ClubsRepository.findByName at hsome
        rw [Option.isSome_map'] at hsome
        obtain ⟨c2, hmem, hp⟩ := List.find?_isSome.mp hsome
        exact ⟨c2, hmem, by simpa using hp⟩
      · exfalso
        have e : ClubsService.updateClub db id (some name) =
            .ok (ClubsRepository.update db id ((some name).map jsTrim)) := by
          unfold ClubsService.updateClub
          rw [if_neg h1]
          simp only [hc]
          simp [hne, hcol]
        rw [e] at herr
        simp at herr
    · rintro ⟨hraw, c2, hc2mem, hc2name⟩
      have hsome : (db.clubs.find? (fun r => r.name == jsTrim name)).isSome :=
        List.find?_isSome.mpr ⟨c2, hc2mem, by simp [hc2name]⟩
      have hcol : (name != "" && name != c.name &&
          (ClubsRepository.findByName db (jsTrim name)).isSome) = true := by
        unfold ClubsRepository.findByName
        rw [Option.isSome_map']
        simp [bne_iff_ne, hname_ne, hraw, hsome]
      unfold ClubsService.updateClub
      rw [if_neg h1]
      simp only [hc]
      simp [hne, hcol]
  · intro hnone
    have hsomef : db.clubs.find? (fun r => r.name == jsTrim name) = none := by
      rw [List.find?_eq_none]
      intro c2 h
      simp [hnone c2 h]
    have hcol : (name != "" && name != c.name &&
        (ClubsRepository.findByName db (jsTrim name)).isSome) = false := by
      unfold ClubsRepository.findByName
      rw [hsomef]
      simp
    obtain ⟨row, hrow, -⟩ := findById_inv hc
    have huniq : (db.clubs.any (fun c2 => c2.id != id && c2.name == jsTrim name)) = false := by
      rw [List.any_eq_false]
      intro c2 hc2
      simp [hnone c2 hc2]
    refine ⟨viewClub { db with clubs := db.clubs.map (fun r => if r.id == id then ⟨r.id, jsTrim name⟩ else r) } ⟨row.id, jsTrim name⟩, { db with clubs := db.clubs.map (fun r => if r.id == id then ⟨r.id, jsTrim name⟩ else r) }, ?_, rfl⟩
    unfold ClubsService.updateClub ClubsRepository.update
    rw [if_neg h1]
    simp only [hc, hrow]
    simp [hne, hcol, huniq]

/-- C4 amended witness: renaming club 1 of the concrete state to a
fresh name succeeds, and renaming with a string that trims to its own
name conflicts. -/
theorem ClubsService.updateClub_uniqueness_spec_witness :
    ∃ v db2, ClubsService.updateClub dbC4 1 (some " Bar ") = .ok (some v, db2) ∧
      v.name = jsTrim " Bar " :=
  ((ClubsService.updateClub_uniqueness_spec dbC4 1 " Bar " (viewClub dbC4 ⟨1, "Foo"⟩)
    (by decide) rfl (by decide)).2) (by decide)

/-! ## C7: createPlayer with a dangling club reference -/

/-- C7.  For every `createPlayer` call whose four required fields pass
validation (and whose optional statistics are in range) but whose
`clubId` references no existing club, creation fails with the
storage-level foreign-key error; the error carries no new state, so no
player row and no statistics row is persisted. -/
theorem PlayersService.createPlayer_fk_spec (db : DB) (d : CreatePlayerData)
    (hn : jsTrim d.name ≠ "") (hnat : jsTrim d.nationality ≠ "")
    (hpos : jsTrim d.position ≠ "") (hcid : 0 < d.clubId)
    (hstats : ∀ s, d.statistics = some s → statsAllValid s = true)
    (hmissing : ∀ c ∈ db.clubs, c.id ≠ d.clubId) :
    PlayersService.createPlayer db d = .error .fk := by
  have hany : (db.clubs.any (fun c => c.id == d.clubId)) = false := by
    rw [List.any_eq_false]
    intro c hc
    simp [hmissing c hc]
  cases hds : d.statistics with
  | none =>
    unfold PlayersService.createPlayer PlayersRepository.create
    simp [hn, hnat, hpos, hds, hany, show ¬ d.clubId ≤ 0 by omega]
  | some s =>
    have hs := hstats s hds
    unfold PlayersService.createPlayer PlayersRepository.create
    simp [hn, hnat, hpos, hds, hs, hany, show ¬ d.clubId ≤ 0 by omega]

/-- C7 witness: creating a player that references the absent club 5 of
the concrete state fails with the foreign-key error. -/
theorem PlayersService.createPlayer_fk_spec_witness :
    PlayersService.createPlayer dbW ⟨"Neymar", "BR", "LW", 5, none⟩ = .error .fk :=
  PlayersService.createPlayer_fk_spec dbW ⟨"Neymar", "BR", "LW", 5, none⟩
    (by decide) (by decide) (by decide) (by decide)
    (fun s hs => by cases hs) (by decide)

/-! ## C5: updatePlayer field validation -/

/-- C5 counterexample.  A supplied non-positive `clubId` is not
validated by `updatePlayer`: the call with `clubId = -1` on an existing
player does not fail with the validation error — the storage layer's
foreign-key failure is caught and surfaced as a null (not-found)
result, with the state unchanged. -/
theorem PlayersService.updatePlayer_clubId_cex :
    PlayersService.updatePlayer dbC5 1 updC5 = .ok (none, dbC5) ∧
    PlayersService.updatePlayer dbC5 1 updC5 ≠ .error .validation :=
  ⟨rfl, by decide⟩

/-- C5 amended.  For every id > 0 and partial player update: each
supplied string field is validated non-empty after trimming (failing
the call with the validation error otherwise) and is stored trimmed;
absent fields are neither validated nor changed; a supplied `clubId`
is not validated — it is passed to storage, where a reference to a
non-existent club makes the whole update surface as a null (not-found)
result with the state unchanged. -/
theorem PlayersService.updatePlayer_spec (db : DB) (id : Int) (d : UpdatePlayerData)
    (hid : 0 < id) :
    ((∃ s, (d.name = some s ∨ d.nationality = some s ∨ d.position = some s) ∧ jsTrim s = "") →
        PlayersService.updatePlayer db id d = .error .validation)
    ∧ ((∀ s, d.name = some s → jsTrim s ≠ "") →
       (∀ s, d.nationality = some s → jsTrim s ≠ "") →
       (∀ s, d.position = some s → jsTrim s ≠ "") →
        ((∀ p ∈ db.players, p.id ≠ id) →
            PlayersService.updatePlayer db id d = .ok (none, db))
        ∧ (∀ p, db.players.find? (fun r => r.id == id) = some p →
            ((∃ cid, d.clubId = some cid ∧ ∀ c ∈ db.clubs, c.id ≠ cid) →
                PlayersService.updatePlayer db id d = .ok (none, db))
            ∧ ((∀ cid, d.clubId = some cid → ∃ c ∈ db.clubs, c.id = cid) →
                ∃ v db2, PlayersService.updatePlayer db id d = .ok (some v, db2) ∧
                  v.name = (d.name.map jsTrim).getD p.name ∧
                  v.nationality = (d.nationality.map jsTrim).getD p.nationality ∧
                  v.position = (d.position.map jsTrim).getD p.position ∧
                  v.clubId = d.clubId.getD p.clubId ∧
                  db2.clubs = db.clubs ∧ db2.stats = db.stats ∧
                  db2.players = db.players.map (fun r => if r.id == id then mergePlayer ⟨d.name.map jsTrim, d.nationality.map jsTrim, d.position.map jsTrim, d.clubId⟩ r else r)))) := by
  have hid' : ¬ id ≤ 0 := by omega
  constructor
  · rintro ⟨s, hsor, hsemp⟩
    rcases hsor with hn | hn | hn
    · unfold PlayersService.updatePlayer
      rw [if_neg hid']
      simp [hn, hsemp]
    · by_cases g1 : (match d.name with
        | some s => jsTrim s == ""
        | none => false) = true
      · unfold PlayersService.updatePlayer
        rw [if_neg hid']
        simp [g1]
      · unfold PlayersService.updatePlayer
        rw [if_neg hid', if_neg g1]
        simp [hn, hsemp]
    · by_cases g1 : (match d.name with
        | some s => jsTrim s == ""
        | none => false) = true
      · unfold PlayersService.updatePlayer
        rw [if_neg hid']
        simp [g1]
      · by_cases g2 : (match d.nationality with
          | some s => jsTrim s == ""
          | none => false) = true
        · unfold PlayersService.updatePlayer
          rw [if_neg hid', if_neg g1]
          simp [g2]
        · unfold PlayersService.updatePlayer
          rw [if_neg hid', if_neg g1, if_neg g2]
          simp [hn, hsemp]
  · intro hne1 hne2 hne3
    have g1 : (match d.name with
      | some s => jsTrim s == ""
      | none => false) = false := by
      cases hdn : d.name with
      | none => rfl
      | some s => simp [hne1 s hdn]
    have g2 : (match d.nationality with
      | some s => jsTrim s == ""
      | none => false) = false := by
      cases hdn : d.nationality with
      | none => rfl
      | some s => simp [hne2 s hdn]
    have g3 : (match d.position with
      | some s => jsTrim s == ""
      | none => false) = false := by
      cases hdn : d.position with
      | none => rfl
      | some s => simp [hne3 s hdn]
    have hsvc : PlayersService.updatePlayer db id d =
        .ok (PlayersRepository.update db id ⟨d.name.map jsTrim, d.nationality.map jsTrim, d.position.map jsTrim, d.clubId⟩) := by
      unfold PlayersService.updatePlayer
      rw [if_neg hid', if_neg (by simp [g1]), if_neg (by simp [g2]), if_neg (by simp [g3])]
    constructor
    · intro hnone
      have hfindn : db.players.find? (fun r => r.id == id) = none := by
        rw [List.find?_eq_none]
        intro p hp
        simp [hnone p hp]
      have hrepo : PlayersRepository.update db id ⟨d.name.map jsTrim, d.nationality.map jsTrim, d.position.map jsTrim, d.clubId⟩ = (none, db) := by
        unfold PlayersRepository.update
        rw [hfindn]
      rw [hsvc, hrepo]
    · intro p hfind
      constructor
      · rintro ⟨cid, hcid, hmiss⟩
        have hany : (db.clubs.any (fun c => c.id == cid)) = false := by
          rw [List.any_eq_false]
          intro c hc
          simp [hmiss c hc]
        have hrepo : PlayersRepository.update db id ⟨d.name.map jsTrim, d.nationality.map jsTrim, d.position.map jsTrim, d.clubId⟩ = (none, db) := by
          unfold PlayersRepository.update
          rw [hfind]
          simp [hcid, hany]
        rw [hsvc, hrepo]
      · intro hok
        have hfk : (match d.clubId with
            | some cid => db.clubs.any (fun c => c.id == cid)
            | none => true) = true := by
          cases hdc : d.clubId with
          | none => rfl
          | some cid =>
            obtain ⟨c, hcmem, hceq⟩ := hok cid hdc
            exact List.any_eq_true.mpr ⟨c, hcmem, by simp [hceq]⟩
        have hrepo : PlayersRepository.update db id ⟨d.name.map jsTrim, d.nationality.map jsTrim, d.position.map jsTrim, d.clubId⟩ =
            (some (viewPlayer { db with players := db.players.map (fun r => if r.id == id then mergePlayer ⟨d.name.map jsTrim, d.nationality.map jsTrim, d.position.map jsTrim, d.clubId⟩ r else r) } (mergePlayer ⟨d.name.map jsTrim, d.nationality.map jsTrim, d.position.map jsTrim, d.clubId⟩ p)),
              { db with players := db.players.map (fun r => if r.id == id then mergePlayer ⟨d.name.map jsTrim, d.nationality.map jsTrim, d.position.map jsTrim, d.clubId⟩ r else r) }) := by
          unfold PlayersRepository.update
          rw [hfind]
          simp [hfk]
        refine ⟨viewPlayer { db with players := db.players.map (fun r => if r.id == id then mergePlayer ⟨d.name.map jsTrim, d.nationality.map jsTrim, d.position.map jsTrim, d.clubId⟩ r else r) } (mergePlayer ⟨d.name.map jsTrim, d.nationality.map jsTrim, d.position.map jsTrim, d.clubId⟩ p), { db with players := db.players.map (fun r => if r.id == id then mergePlayer ⟨d.name.map jsTrim, d.nationality.map jsTrim, d.position.map jsTrim, d.clubId⟩ r else r) }, by rw [hsvc, hrepo], rfl, rfl, rfl, rfl, rfl, rfl, rfl⟩

/-- C5 amended witness: updating player 1's name (supplied untrimmed)
with no other field succeeds on the concrete state, stores the trimmed
name and leaves the other fields untouched. -/
theorem PlayersService.updatePlayer_spec_witness :
    ∃ v db2, PlayersService.updatePlayer dbC5 1 ⟨some " Neymar ", none, none, none⟩ = .ok (some v, db2) ∧
      v.name = ((some " Neymar ").map jsTrim).getD "P" ∧
      v.nationality = ((none : Option String).map jsTrim).getD "BR" ∧
      v.position = ((none : Option String).map jsTrim).getD "ST" ∧
      v.clubId = (none : Option Int).getD 1 ∧
      db2.clubs = dbC5.clubs ∧ db2.stats = dbC5.stats ∧
      db2.players = dbC5.players.map (fun r => if r.id == 1 then mergePlayer ⟨(some " Neymar ").map jsTrim, (none : Option String).map jsTrim, (none : Option String).map jsTrim, none⟩ r else r) :=
  ((PlayersService.updatePlayer_spec dbC5 1 ⟨some " Neymar ", none, none, none⟩ (by decide)).2
    (fun s hs => by cases hs; decide)
    (fun s hs => by cases hs)
    (fun s hs => by cases hs)).2 ⟨1, "P", "BR", "ST", 1⟩ rfl |>.2
    (fun cid h => by cases h)

/-! ## C6: filtered listing -/

/-- C6 counterexample.  `minOverall = 0` passes validation but is
treated as absent by the repository's truthiness test, so a player
without any statistics record is returned even though it does not
satisfy "overall ≥ 0": the code returns every player while the claim's
AND-filter semantics returns none. -/
theorem PlayersService.getPlayersWithFilters_zero_bound_cex :
    PlayersService.getPlayersWithFilters dbC5 fMin0 = .ok (PlayersService.getAllPlayers dbC5) ∧
    (PlayersService.getAllPlayers dbC5).filter (specMatches fMin0) = [] ∧
    PlayersService.getAllPlayers dbC5 ≠ [] :=
  ⟨rfl, rfl, by decide⟩

lemma filter_map_comm {α β : Type} (g : α → β) (p : α → Bool) (q : β → Bool)
    (h : ∀ a, p a = q (g a)) : ∀ l : List α, (l.filter p).map g = (l.map g).filter q := by
  intro l
  induction l with
  | nil => rfl
  | cons a l ih =>
    cases hp : p a <;>
      simp [List.filter_cons, ← h a, hp, ih]

lemma whereMatch_eq_specMatches (db : DB) (f : PlayerFilters)
    (hclub : ∀ c, f.clubId = some c → c ≠ 0)
    (hminz : ∀ m, f.minOverall = some m → m ≠ 0)
    (hmaxz : ∀ m, f.maxOverall = some m → m ≠ 0)
    (hpos : f.position ≠ some "")
    (hnat : f.nationality ≠ some "")
    (p : PlayerRow) :
    whereMatch db f p = specMatches f (viewPlayer db p) := by
  have e1 : (match f.clubId with
      | some c => if c == 0 then true else p.clubId == c
      | none => true) = (match f.clubId with
      | some c => (viewPlayer db p).clubId == c
      | none => true) := by
    cases hc : f.clubId with
    | none => rfl
    | some c =>
      have hcz : (c == 0) = false := beq_eq_false_iff_ne.mpr (hclub c hc)
      simp only [hcz, Bool.false_eq_true, if_false]
      rfl
  have e2 : (match f.position with
      | some s => if s == "" then true else p.position == s
      | none => true) = (match f.position with
      | some s => (viewPlayer db p).position == s
      | none => true) := by
    cases hs : f.position with
    | none => rfl
    | some s =>
      have hse : (s == "") = false := by
        rw [beq_eq_false_iff_ne]
        intro h
        exact hpos (by rw [hs, h])
      simp only [hse, Bool.false_eq_true, if_false]
      rfl
  have e3 : (match f.nationality with
      | some s => if s == "" then true else p.nationality == s
      | none => true) = (match f.nationality with
      | some s => (viewPlayer db p).nationality == s
      | none => true) := by
    cases hs : f.nationality with
    | none => rfl
    | some s =>
      have hse : (s == "") = false := by
        rw [beq_eq_false_iff_ne]
        intro h
        exact hnat (by rw [hs, h])
      simp only [hse, Bool.false_eq_true, if_false]
      rfl
  have e4 : (let minT : Option Int := match f.minOverall with
       | some m => if m == 0 then none else some m
       | none => none
     let maxT : Option Int := match f.maxOverall with
       | some m => if m == 0 then none else some m
       | none => none
     if minT.isSome || maxT.isSome then
       match statsFor db p.id with
       | some st =>
         (match minT with
          | some m => decide (m ≤ st.overall)
          | none => true)
         &&
         (match maxT with
          | some m => decide (st.overall ≤ m)
          | none => true)
       | none => false
     else true) = ((match f.minOverall with
       | some m =>
         match (viewPlayer db p).statistics with
         | some st => decide (m ≤ st.overall)
         | none => false
       | none => true)
      &&
      (match f.maxOverall with
       | some m =>
         match (viewPlayer db p).statistics with
         | some st => decide (st.overall ≤ m)
         | none => false
       | none => true)) := by
    have hview : (viewPlayer db p).statistics = statsFor db p.id := rfl
    rw [hview]
    cases hm : f.minOverall with
    | none =>
      cases hx : f.maxOverall with
      | none => rfl
      | some b =>
        have hbz : (b == 0) = false := beq_eq_false_iff_ne.mpr (hmaxz b hx)
        simp only [hbz, Bool.false_eq_true, if_false]
        cases hst : statsFor db p.id <;> simp
    | some a =>
      have haz : (a == 0) = false := beq_eq_false_iff_ne.mpr (hminz a hm)
      cases hx : f.maxOverall with
      | none =>
        simp only [haz, Bool.false_eq_true, if_false]
        cases hst : statsFor db p.id <;> simp
      | some b =>
        have hbz : (b == 0) = false := beq_eq_false_iff_ne.mpr (hmaxz b hx)
        simp only [haz, hbz, Bool.false_eq_true, if_false]
        cases hst : statsFor db p.id <;> simp
  unfold whereMatch specMatches
  rw [e1, e2, e3, e4]
  simp only [Bool.and_assoc]

/-- C6 amended.  Validated filters whose supplied values are truthy
(positive `clubId`, bounds within `[1, 100]`, non-empty strings) are
applied with exact AND semantics — a supplied bound requiring a
statistics record; an entirely empty filter record behaves as
`listPlayers`; and `minOverall > maxOverall` with both bounds in range
fails with the validation error.  (A supplied falsy value — `0` or the
empty string — is treated as if the filter were absent.) -/
theorem PlayersService.getPlayersWithFilters_spec :
    (∀ (db : DB) (f : PlayerFilters),
      (∀ c, f.clubId = some c → 0 < c) →
      (∀ m, f.minOverall = some m → 1 ≤ m ∧ m ≤ 100) →
      (∀ m, f.maxOverall = some m → 1 ≤ m ∧ m ≤ 100) →
      (∀ a b, f.minOverall = some a → f.maxOverall = some b → a ≤ b) →
      f.position ≠ some "" → f.nationality ≠ some "" →
      PlayersService.getPlayersWithFilters db f =
        .ok ((PlayersService.getAllPlayers db).filter (specMatches f)))
    ∧ (∀ db : DB,
        PlayersService.getPlayersWithFilters db noFilters = .ok (PlayersService.getAllPlayers db))
    ∧ (∀ (db : DB) (f : PlayerFilters) (a b : Int),
        (∀ c, f.clubId = some c → 0 < c) →
        0 ≤ a → a ≤ 100 → 0 ≤ b → b ≤ 100 →
        f.minOverall = some a → f.maxOverall = some b → b < a →
        PlayersService.getPlayersWithFilters db f = .error .validation) := by
  refine ⟨?_, ?_, ?_⟩
  · intro db f hclub hmin hmax hord hpos hnat
    have g1 : (match f.clubId with
        | some c => decide (c ≤ 0)
        | none => false) = false := by
      cases hc : f.clubId with
      | none => rfl
      | some c =>
        have := hclub c hc
        simp
        omega
    have g2 : (match f.minOverall with
        | some m => decide (m < 0) || decide (100 < m)
        | none => false) = false := by
      cases hm : f.minOverall with
      | none => rfl
      | some m =>
        have := hmin m hm
        simp
        omega
    have g3 : (match f.maxOverall with
        | some m => decide (m < 0) || decide (100 < m)
        | none => false) = false := by
      cases hm : f.maxOverall with
      | none => rfl
      | some m =>
        have := hmax m hm
        simp
        omega
    have g4 : (match f.minOverall, f.maxOverall with
        | some a, some b => decide (b < a)
        | _, _ => false) = false := by
      cases hm : f.minOverall with
      | none => rfl
      | some a =>
        cases hx : f.maxOverall with
        | none => rfl
        | some b =>
          have := hord a b hm hx
          simp
          omega
    have hrepo : PlayersRepository.findWithFilters db f =
        (PlayersService.getAllPlayers db).filter (specMatches f) := by
      unfold PlayersRepository.findWithFilters PlayersService.getAllPlayers
        PlayersRepository.findAll
      exact filter_map_comm (viewPlayer db) (whereMatch db f) (specMatches f)
        (whereMatch_eq_specMatches db f
          (fun c hc => by have := hclub c hc; omega)
          (fun m hm => by have := hmin m hm; omega)
          (fun m hm => by have := hmax m hm; omega)
          hpos hnat) db.players
    unfold PlayersService.getPlayersWithFilters
    simp only [g1, g2, g3, g4, Bool.false_eq_true, if_false]
    rw [hrepo]
  · intro db
    have hguards : PlayersService.getPlayersWithFilters db noFilters =
        .ok (PlayersRepository.findWithFilters db noFilters) := rfl
    have hall : PlayersRepository.findWithFilters db noFilters =
        PlayersService.getAllPlayers db := by
      unfold PlayersRepository.findWithFilters PlayersService.getAllPlayers
        PlayersRepository.findAll
      rw [List.filter_eq_self.mpr]
      intro a _
      rfl
    rw [hguards, hall]
  · intro db f a b hclub ha0 ha100 hb0 hb100 hmin hmax hba
    have g1 : (match f.clubId with
        | some c => decide (c ≤ 0)
        | none => false) = false := by
      cases hc : f.clubId with
      | none => rfl
      | some c =>
        have := hclub c hc
        simp
        omega
    have g2 : (match f.minOverall with
        | some m => decide (m < 0) || decide (100 < m)
        | none => false) = false := by
      rw [hmin]
      simp
      omega
    have g3 : (match f.maxOverall with
        | some m => decide (m < 0) || decide (100 < m)
        | none => false) = false := by
      rw [hmax]
      simp
      omega
    have g4 : (match f.minOverall, f.maxOverall with
        | some a, some b => decide (b < a)
        | _, _ => false) = true := by
      rw [hmin, hmax]
      simp [hba]
    unfold PlayersService.getPlayersWithFilters
    simp [g1, g2, g3, g4]

/-- C6 amended witness: filtering the concrete state by the club and an
overall range returns exactly the matching player. -/
theorem PlayersService.getPlayersWithFilters_spec_witness :
    PlayersService.getPlayersWithFilters dbW ⟨some 2, none, none, some 90, some 100⟩ =
      .ok ((PlayersService.getAllPlayers dbW).filter (specMatches ⟨some 2, none, none, some 90, some 100⟩)) :=
  PlayersService.getPlayersWithFilters_spec.1 dbW ⟨some 2, none, none, some 90, some 100⟩
    (fun c hc => by cases hc; decide)
    (fun m hm => by cases hm; exact ⟨by decide, by decide⟩)
    (fun m hm => by cases hm; exact ⟨by decide, by decide⟩)
    (fun a b ha hb => by cases ha; cases hb; decide)
    (by decide) (by decide)

/-! ## C8: aggregate statistics -/

lemma firstDedup_concat (l : List String) (k : String) :
    firstDedup (l ++ [k]) =
      if (firstDedup l).contains k then firstDedup l else firstDedup l ++ [k] := by
  unfold firstDedup
  rw [List.foldl_append]
  rfl

lemma countBy_concat (key : PlayerView → String) (l : List PlayerView) (x : PlayerView) :
    countBy key (l ++ [x]) = bump (key x) (countBy key l) := by
  unfold countBy
  rw [List.foldl_append]
  rfl

lemma mem_firstDedup_aux (l : List String) : ∀ (acc : List String) (a : String),
    (a ∈ l.foldl (fun acc a => if acc.contains a then acc else acc ++ [a]) acc) ↔
      (a ∈ acc ∨ a ∈ l) := by
  induction l with
  | nil =>
    intro acc a
    simp
  | cons b l ih =>
    intro acc a
    simp only [List.foldl_cons]
    rw [ih]
    by_cases hb : acc.contains b = true
    · have hbmem : b ∈ acc := by simpa using hb
      rw [if_pos hb]
      simp only [List.mem_cons]
      constructor
      · rintro (h | h)
        · exact Or.inl h
        · exact Or.inr (Or.inr h)
      · rintro (h | h | h)
        · exact Or.inl h
        · exact Or.inl (h ▸ hbmem)
        · exact Or.inr h
    · rw [if_neg hb]
      simp only [List.mem_append, List.mem_singleton, List.mem_cons]
      tauto

lemma mem_firstDedup (l : List String) (a : String) : a ∈ firstDedup l ↔ a ∈ l := by
  have h := mem_firstDedup_aux l [] a
  simpa [firstDedup] using h

lemma nodup_firstDedup_aux (l : List String) : ∀ acc : List String, acc.Nodup →
    (l.foldl (fun acc a => if acc.contains a then acc else acc ++ [a]) acc).Nodup := by
  induction l with
  | nil =>
    intro acc h
    exact h
  | cons b l ih =>
    intro acc h
    simp only [List.foldl_cons]
    by_cases hb : acc.contains b = true
    · rw [if_pos hb]
      exact ih acc h
    · rw [if_neg hb]
      refine ih (acc ++ [b]) ?_
      have hnb : b ∉ acc := by simpa using hb
      simp [List.nodup_append, h, hnb]

lemma nodup_firstDedup (l : List String) : (firstDedup l).Nodup :=
  nodup_firstDedup_aux l [] List.nodup_nil

lemma occCount_concat (v k : String) (l : List String) :
    occCount v (l ++ [k]) = occCount v l + (if k == v then 1 else 0) := by
  induction l with
  | nil =>
    simp [occCount]
  | cons b l ih =>
    simp only [List.cons_append, occCount, List.append_eq]
    rw [ih, Nat.add_assoc]

lemma occCount_eq_zero (k : String) (l : List String) (h : k ∉ l) : occCount k l = 0 := by
  induction l with
  | nil => rfl
  | cons b l ih =>
    have hbk : (b == k) = false := by
      rw [beq_eq_false_iff_ne]
      intro e
      exact h (e ▸ List.mem_cons_self b l)
    simp only [occCount, hbk, Bool.false_eq_true, if_false]
    rw [ih (fun hm => h (List.mem_cons_of_mem b hm))]

lemma bump_not_mem (k : String) (M : List String) (g : String → Nat) (h : k ∉ M) :
    bump k (M.map (fun v => (v, g v))) = M.map (fun v => (v, g v)) ++ [(k, 1)] := by
  induction M with
  | nil => rfl
  | cons b M ih =>
    have hbk : (b == k) = false := by
      rw [beq_eq_false_iff_ne]
      intro e
      exact h (e ▸ List.mem_cons_self b M)
    simp only [List.map_cons, bump, hbk, Bool.false_eq_true, if_false, List.cons_append]
    rw [ih (fun hm => h (List.mem_cons_of_mem b hm))]

lemma bump_mem (k : String) (M : List String) (g : String → Nat) (hM : M.Nodup) (h : k ∈ M) :
    bump k (M.map (fun v => (v, g v))) =
      M.map (fun v => (v, if v == k then g v + 1 else g v)) := by
  induction M with
  | nil => exact absurd h (List.not_mem_nil k)
  | cons b M ih =>
    by_cases hbk : b = k
    · subst hbk
      have hknot : b ∉ M := (List.nodup_cons.mp hM).1
      have hcongr : ∀ v ∈ M,
          (fun v => ((v : String), g v)) v = (fun v => (v, if v == b then g v + 1 else g v)) v := by
        intro v hv
        have hvk : (v == b) = false := by
          rw [beq_eq_false_iff_ne]
          intro e
          exact hknot (e ▸ hv)
        simp [hvk]
      simp only [List.map_cons, bump]
      rw [if_pos (by simp : ((b == b) = true)), List.map_congr_left hcongr]
      simp
    · have hbkf : (b == k) = false := beq_eq_false_iff_ne.mpr hbk
      have hkM : k ∈ M := by
        rcases List.mem_cons.mp h with e | hm
        · exact absurd e.symm hbk
        · exact hm
      simp only [List.map_cons, bump, hbkf, Bool.false_eq_true, if_false]
      rw [ih (List.nodup_cons.mp hM).2 hkM]

lemma counts_concat (ks : List String) (k : String) :
    (firstDedup (ks ++ [k])).map (fun v => (v, occCount v (ks ++ [k]))) =
      bump k ((firstDedup ks).map (fun v => (v, occCount v ks))) := by
  by_cases hk : k ∈ ks
  · have hkd : k ∈ firstDedup ks := (mem_firstDedup ks k).mpr hk
    have hcont : (firstDedup ks).contains k = true := by simpa using hkd
    rw [firstDedup_concat, if_pos hcont]
    rw [bump_mem k (firstDedup ks) (fun v => occCount v ks) (nodup_firstDedup ks) hkd]
    apply List.map_congr_left
    intro v hv
    rw [occCount_concat]
    by_cases hvk : v = k
    · subst hvk
      simp
    · have h1 : (k == v) = false := beq_eq_false_iff_ne.mpr (Ne.symm hvk)
      have h2 : (v == k) = false := beq_eq_false_iff_ne.mpr hvk
      simp [h1, h2]
  · have hkd : k ∉ firstDedup ks := fun hmem => hk ((mem_firstDedup ks k).mp hmem)
    have hcont : (firstDedup ks).contains k = false := by simpa using hkd
    rw [firstDedup_concat, if_neg (by simpa using hkd)]
    rw [bump_not_mem k (firstDedup ks) (fun v => occCount v ks) hkd]
    rw [List.map_append]
    congr 1
    · apply List.map_congr_left
      intro v hv
      have hvk : v ≠ k := fun e => hkd (e ▸ hv)
      rw [occCount_concat]
      simp [beq_eq_false_iff_ne.mpr (Ne.symm hvk)]
    · simp only [List.map_cons, List.map_nil]
      rw [occCount_concat, occCount_eq_zero k ks hk]
      simp

lemma countBy_eq_specCounts (key : PlayerView → String) (l : List PlayerView) :
    countBy key l = specCounts key l := by
  induction l using List.reverseRecOn with
  | nil => rfl
  | append_singleton l x ih =>
    rw [countBy_concat, ih]
    unfold specCounts
    rw [show (l ++ [x]).map key = l.map key ++ [key x] by simp]
    rw [counts_concat]

lemma summand_eq (p : PlayerView) :
    (match p.statistics with
     | some s => jsOrInt s.overall 0
     | none => 0) = statOverall p := by
  unfold statOverall jsOrInt
  cases hs : p.statistics with
  | none => rfl
  | some s =>
    show (if s.overall == 0 then 0 else s.overall) = s.overall
    by_cases h0 : s.overall = 0
    · simp [h0]
    · simp [h0]

lemma foldl_summand (l : List PlayerView) : ∀ a : Int,
    l.foldl
      (fun acc p =>
        acc + (match p.statistics with
               | some s => jsOrInt s.overall 0
               | none => 0)) a = a + (l.map statOverall).sum := by
  induction l with
  | nil =>
    intro a
    simp
  | cons p l ih =>
    intro a
    simp only [List.foldl_cons, List.map_cons, List.sum_cons]
    rw [ih, summand_eq]
    omega

lemma sumOverall_eq (l : List PlayerView) : sumOverall l = (l.map statOverall).sum := by
  unfold sumOverall
  rw [foldl_summand]
  omega

lemma map_cast_sum (l : List PlayerView) :
    (l.map (fun p => (statOverall p : ℚ))).sum = (((l.map statOverall).sum : Int) : ℚ) := by
  induction l with
  | nil => simp
  | cons p l ih =>
    simp only [List.map_cons, List.sum_cons, ih]
    push_cast
    ring

lemma round2_zero : round2 0 = 0 := by
  unfold round2 jsRound
  have h1 : ((0 : ℚ) * 100 + 1 / 2) = 1 / 2 := by norm_num
  rw [h1]
  have h2 : Int.floor ((1 : ℚ) / 2) = 0 := by
    rw [Int.floor_eq_zero_iff]
    constructor <;> norm_num
  rw [h2]
  norm_num

/-- C8.  `getPlayersStatistics` returns the number of players, the mean
`overall` over exactly the players that have a statistics record
(rounded to 2 decimal places, `0` when no player has statistics), and
the five most frequent positions and nationalities with their counts
— grouped in first-encounter order and stably sorted by count
descending, so ties stay in first-encounter order; on an empty player
set it returns `{0, 0, [], []}`. -/
theorem PlayersService.getPlayersStatistics_spec (db : DB) :
    (PlayersService.getPlayersStatistics db =
      { totalPlayers := (PlayersService.getAllPlayers db).length,
        averageOverall := specAverageOverall (PlayersService.getAllPlayers db),
        topPositions := specTopFive (fun p => p.position) (PlayersService.getAllPlayers db),
        topNationalities := specTopFive (fun p => p.nationality) (PlayersService.getAllPlayers db) })
    ∧ (db.players = [] → PlayersService.getPlayersStatistics db = ⟨0, 0, [], []⟩)
    ∧ List.Pairwise countGE (PlayersService.getPlayersStatistics db).topPositions
    ∧ List.Pairwise countGE (PlayersService.getPlayersStatistics db).topNationalities := by
  refine ⟨?_, ?_, ?_, ?_⟩
  · unfold PlayersService.getPlayersStatistics
    rw [PlayersStatsResult.mk.injEq]
    refine ⟨rfl, ?_, ?_, ?_⟩
    · simp only [specAverageOverall, PlayersService.getAllPlayers]
      by_cases hws : ((PlayersRepository.findAll db).filter (fun p => p.statistics.isSome)).length = 0
      · rw [if_neg (by omega), if_pos hws, round2_zero]
      · rw [if_pos (by omega), if_neg hws, sumOverall_eq, ← map_cast_sum]
    · rw [countBy_eq_specCounts]
      rfl
    · rw [countBy_eq_specCounts]
      rfl
  · intro h
    have hall : PlayersRepository.findAll db = [] := by
      unfold PlayersRepository.findAll
      rw [h]
      rfl
    unfold PlayersService.getPlayersStatistics
    rw [hall]
    rw [PlayersStatsResult.mk.injEq]
    refine ⟨rfl, ?_, rfl, rfl⟩
    rw [if_neg (by simp), round2_zero]
  · show List.Pairwise countGE (topFive (countBy (fun p => p.position) (PlayersRepository.findAll db)))
    unfold topFive sortByCountDesc
    exact (List.sorted_insertionSort countGE
      (countBy (fun p => p.position) (PlayersRepository.findAll db))).sublist
      (List.take_sublist 5 _)
  · show List.Pairwise countGE (topFive (countBy (fun p => p.nationality) (PlayersRepository.findAll db)))
    unfold topFive sortByCountDesc
    exact (List.sorted_insertionSort countGE
      (countBy (fun p => p.nationality) (PlayersRepository.findAll db))).sublist
      (List.take_sublist 5 _)

/-- C8 witness: the aggregate on the empty state. -/
theorem PlayersService.getPlayersStatistics_spec_witness :
    PlayersService.getPlayersStatistics dbEmpty = ⟨0, 0, [], []⟩ :=
  (PlayersService.getPlayersStatistics_spec dbEmpty).2.1 rfl
